import Mathlib

/-!
Verification of the FoundationDB data-distribution relocation queue
(`DataDistributionQueue.actor.cpp`), via a shallow embedding of its data
model and operations.

Keys are modelled as naturals with the lexicographic byte-string order
abstracted to the order on `Nat`; key ranges are half-open intervals
`[beginK, endK)`.  Machine integers are modelled as unbounded `Int`/`Nat`
(no arithmetic in the embedded code approaches the 32/64-bit bounds).
Knob values (`SERVER_KNOBS->...`) live outside the four source files, so
they are carried as an explicit `Knobs` parameter.
-/

namespace DDQ

/-- Storage-server identifier (`UID`).  The default-constructed `UID()` is
the invalid id; we model it as `0`. -/
abbrev UID := Nat

/-- A key of the keyspace, with the byte-string order abstracted to `Nat`. -/
abbrev Key := Nat

/-- `KeyRangeRef`: the half-open interval `[beginK, endK)`. -/
structure KeyRange where
  beginK : Key
  endK : Key
deriving DecidableEq, Repr

/-- Nonempty intersection of two half-open ranges (what
`KeyRangeMap::intersectingRanges` selects). -/
def KeyRange.overlaps (a b : KeyRange) : Bool :=
  decide (a.beginK < b.endK) && decide (b.beginK < a.endK)

/-- `KeyRangeRef::contains(KeyRangeRef const&)`:
`begin <= keys.begin && keys.end <= end`. -/
def KeyRange.containsRange (a b : KeyRange) : Bool :=
  decide (a.beginK ≤ b.beginK) && decide (b.endK ≤ a.endK)

/-- `RelocateReason` (from `DataDistribution.actor.h`; only the
constructors used by the embedded code). -/
inductive RelocateReason where
  | INVALID
  | OTHER
  | REBALANCE_DISK
  | REBALANCE_READ
deriving DecidableEq, Repr

/-- The `SERVER_KNOBS` fields read by the embedded code.  Their values are
configuration, not part of the four source files, so they are parameters
of the model.  Priorities are C ints; parallelism knobs are positive
counts. -/
structure Knobs where
  PRIORITY_TEAM_UNHEALTHY : Int
  PRIORITY_TEAM_2_LEFT : Int
  PRIORITY_TEAM_1_LEFT : Int
  PRIORITY_TEAM_0_LEFT : Int
  PRIORITY_POPULATE_REGION : Int
  PRIORITY_TEAM_REDUNDANT : Int
  PRIORITY_TEAM_HEALTHY : Int
  PRIORITY_TEAM_CONTAINS_UNDESIRED_SERVER : Int
  PRIORITY_PERPETUAL_STORAGE_WIGGLE : Int
  PRIORITY_SPLIT_SHARD : Int
  PRIORITY_MERGE_SHARD : Int
  RELOCATION_PARALLELISM_PER_SOURCE_SERVER : Nat
  RELOCATION_PARALLELISM_PER_DEST_SERVER : Nat
  USE_OLD_NEEDED_SERVERS : Bool
  MIN_SHARD_BYTES : Int
  REBALANCE_MAX_RETRIES : Nat

/-- `WORK_FULL_UTILIZATION` — a fixed-point scaling factor, not a knob. -/
def WORK_FULL_UTILIZATION : Int := 10000

/-- `RelocateData` (the queue's invariant entity).  `TraceInterval` and the
`shared_ptr<DataMove>` handle are not data the embedded operations compute
with; the handle is represented by the Boolean `hasDataMove`
(`dataMove != nullptr`), which is all `isRestore` inspects. -/
structure RelocateData where
  keys : KeyRange
  priority : Int
  boundaryPriority : Int
  healthPriority : Int
  reason : RelocateReason
  startTime : Int
  randomId : UID
  dataMoveId : UID
  workFactor : Int
  src : List UID
  completeSources : List UID
  completeDests : List UID
  wantsNewServers : Bool
  cancellable : Bool
  hasDataMove : Bool
deriving DecidableEq, Repr

/-- `RelocateData::isRestore`. -/
def RelocateData.isRestore (r : RelocateData) : Bool := r.hasDataMove

/-- `RelocateData::operator>`: priority descending, then startTime
ascending, then randomId descending.  This is the comparator of every
`std::set<RelocateData, std::greater<RelocateData>>` in the queue. -/
def rdGT (a b : RelocateData) : Bool :=
  if a.priority ≠ b.priority then decide (a.priority > b.priority)
  else if a.startTime ≠ b.startTime then decide (a.startTime < b.startTime)
  else decide (a.randomId > b.randomId)

/-- `RelocateData::operator==` exactly as written in the source: it
compares priority, boundaryPriority, healthPriority, reason, keys,
startTime, workFactor, src, completeSources, wantsNewServers and randomId
(and nothing else). -/
def rdEq (a b : RelocateData) : Bool :=
  decide (a.priority = b.priority) && decide (a.boundaryPriority = b.boundaryPriority) &&
  decide (a.healthPriority = b.healthPriority) && decide (a.reason = b.reason) &&
  decide (a.keys = b.keys) && decide (a.startTime = b.startTime) &&
  decide (a.workFactor = b.workFactor) && decide (a.src = b.src) &&
  decide (a.completeSources = b.completeSources) &&
  decide (a.wantsNewServers = b.wantsNewServers) && decide (a.randomId = b.randomId)

/-- Two values are equivalent under the `std::set` comparator `rdGT`
(i.e. neither is greater than the other) precisely when they agree on the
comparator's key `(priority, startTime, randomId)`.  `std::set::find`,
`count` and `erase` identify elements by this equivalence. -/
def sameKey (a b : RelocateData) : Bool :=
  decide (a.priority = b.priority) && decide (a.startTime = b.startTime) &&
  decide (a.randomId = b.randomId)

/-- `std::set<RelocateData, std::greater>::count`/`find` on a set modelled
as a list: membership up to comparator equivalence. -/
def memKey (l : List RelocateData) (r : RelocateData) : Bool :=
  l.any (fun x => sameKey x r)

/-- `std::set::erase` on a set modelled as a list: a `std::set` holds at
most one element per comparator-equivalence class, so erasing the found
element removes every equivalent one. -/
def eraseKey (l : List RelocateData) (r : RelocateData) : List RelocateData :=
  l.filter (fun x => !sameKey x r)

/-- The ledger bucket `prio / 100` used by every `Busyness` operation.
All of them `ASSERT(prio > 0 && prio < 1000)`, on which domain C `int`
division agrees with this `Nat` division. -/
def prioBucket (prio : Int) : Nat := prio.toNat / 100

/-- The loop `for (int i = 0; i <= (prio / 100); i++) ledger[i] += work;`
of `Busyness::addWork`, walking the ledger with the running index. -/
def addWorkLoop (bucket : Nat) (work : Int) : Nat → List Int → List Int
  | _, [] => []
  | i, v :: rest =>
      (if i ≤ bucket then v + work else v) :: addWorkLoop bucket work (i + 1) rest

/-- `Busyness`: a per-server cumulative workload ledger by priority
bucket; constructed as ten zeroes. -/
structure Busyness where
  ledger : List Int
deriving DecidableEq, Repr

/-- `Busyness()` — `ledger(10, 0)`. -/
def Busyness.init : Busyness := ⟨List.replicate 10 0⟩

/-- `Busyness::canLaunch`:
`ledger[prio / 100] <= WORK_FULL_UTILIZATION - work`. -/
def Busyness.canLaunch (b : Busyness) (prio work : Int) : Bool :=
  decide (b.ledger.getD (prioBucket prio) 0 ≤ WORK_FULL_UTILIZATION - work)

/-- `Busyness::addWork`. -/
def Busyness.addWork (b : Busyness) (prio work : Int) : Busyness :=
  ⟨addWorkLoop (prioBucket prio) work 0 b.ledger⟩

/-- `Busyness::removeWork` — `addWork(prio, -work)`. -/
def Busyness.removeWork (b : Busyness) (prio work : Int) : Busyness :=
  b.addWork prio (-work)

theorem addWorkLoop_length (bucket : Nat) (work : Int) :
    ∀ (i : Nat) (l : List Int), (addWorkLoop bucket work i l).length = l.length := by
  intro i l
  induction l generalizing i with
  | nil => rfl
  | cons v rest ih => simp [addWorkLoop, ih]

theorem addWorkLoop_getD (bucket : Nat) (work : Int) :
    ∀ (i j : Nat) (l : List Int),
      (addWorkLoop bucket work i l).getD j 0 =
        l.getD j 0 + (if j < l.length ∧ i + j ≤ bucket then work else 0) := by
  intro i j l
  induction l generalizing i j with
  | nil => simp [addWorkLoop]
  | cons v rest ih =>
    cases j with
    | zero =>
      simp only [addWorkLoop, List.getD_cons_zero, List.length_cons]
      by_cases h : i ≤ bucket
      · rw [if_pos h, if_pos (by omega)]
      · rw [if_neg h, if_neg (by omega)]; omega
    | succ j =>
      simp only [addWorkLoop, List.getD_cons_succ, List.length_cons]
      rw [ih]
      by_cases hj : j < rest.length ∧ i + 1 + j ≤ bucket
      · rw [if_pos hj, if_pos (by omega)]
      · rw [if_neg hj, if_neg (by omega)]

theorem addWork_length (b : Busyness) (prio work : Int) :
    (b.addWork prio work).ledger.length = b.ledger.length := by
  simp [Busyness.addWork, addWorkLoop_length]

theorem addWork_getD (b : Busyness) (prio work : Int) (j : Nat) :
    (b.addWork prio work).ledger.getD j 0 =
      b.ledger.getD j 0 +
        (if j < b.ledger.length ∧ j ≤ prioBucket prio then work else 0) := by
  show (addWorkLoop (prioBucket prio) work 0 b.ledger).getD j 0 = _
  rw [addWorkLoop_getD]
  simp only [Nat.zero_add]

/-- `getSrcWorkFactor`: the source work factor a relocation would get were
it launched now, by health-priority band. -/
def getSrcWorkFactor (K : Knobs) (relocation : RelocateData) (singleRegionTeamSize : Nat) : Nat :=
  if relocation.healthPriority = K.PRIORITY_TEAM_1_LEFT ∨
      relocation.healthPriority = K.PRIORITY_TEAM_0_LEFT then
    WORK_FULL_UTILIZATION.toNat / K.RELOCATION_PARALLELISM_PER_SOURCE_SERVER
  else if relocation.healthPriority = K.PRIORITY_TEAM_2_LEFT then
    WORK_FULL_UTILIZATION.toNat / 2 / K.RELOCATION_PARALLELISM_PER_SOURCE_SERVER
  else
    WORK_FULL_UTILIZATION.toNat / singleRegionTeamSize /
      K.RELOCATION_PARALLELISM_PER_SOURCE_SERVER

/-- `getDestWorkFactor`: work of moving a shard is even across destination
servers. -/
def getDestWorkFactor (K : Knobs) : Nat :=
  WORK_FULL_UTILIZATION.toNat / K.RELOCATION_PARALLELISM_PER_DEST_SERVER

/-- The `busyCopy` of `canLaunchSrc`: the server's busyness with the work
of every supplied cancellable relocation listing that server among its
sources subtracted (that work would be cancelled upon launch). -/
def cancelAdjustedBusyness (busymap : UID → Busyness) (cancellableRelocations : List RelocateData)
    (s : UID) : Busyness :=
  cancellableRelocations.foldl
    (fun b c => if c.src.contains s then b.removeWork c.priority c.workFactor else b)
    (busymap s)

/-- The admission loop of `canLaunchSrc`: walk `relocation.src`,
decrement `neededServers` for each server whose cancel-adjusted busyness
admits the work, and succeed as soon as it reaches zero. -/
def canLaunchSrcLoop (prio workFactor : Int) (busymap : UID → Busyness)
    (cancellableRelocations : List RelocateData) : List UID → Int → Bool
  | [], _ => false
  | s :: rest, neededServers =>
      if (cancelAdjustedBusyness busymap cancellableRelocations s).canLaunch prio workFactor then
        if neededServers - 1 = 0 then true
        else canLaunchSrcLoop prio workFactor busymap cancellableRelocations rest
          (neededServers - 1)
      else canLaunchSrcLoop prio workFactor busymap cancellableRelocations rest neededServers

/-- `canLaunchSrc`: data movement's source-side resource control.
Asserted preconditions of the source (`workFactor == 0`,
`src.size() != 0`, `teamSize >= singleRegionTeamSize`) appear as
hypotheses of the theorems about it. -/
def canLaunchSrc (K : Knobs) (relocation : RelocateData) (teamSize singleRegionTeamSize : Int)
    (busymap : UID → Busyness) (cancellableRelocations : List RelocateData) : Bool :=
  let workFactor : Int := getSrcWorkFactor K relocation singleRegionTeamSize.toNat
  let neededServers : Int :=
    if K.USE_OLD_NEEDED_SERVERS then max 1 ((relocation.src.length : Int) - teamSize + 1)
    else min (relocation.src.length : Int) (teamSize - singleRegionTeamSize + 1)
  canLaunchSrcLoop relocation.priority workFactor busymap cancellableRelocations
    relocation.src neededServers

theorem canLaunchSrcLoop_iff (prio workFactor : Int) (busymap : UID → Busyness)
    (crs : List RelocateData) (src : List UID) (needed : Int) (hneed : 1 ≤ needed) :
    canLaunchSrcLoop prio workFactor busymap crs src needed = true ↔
      needed ≤ (src.countP
        (fun s => (cancelAdjustedBusyness busymap crs s).canLaunch prio workFactor) : Int) := by
  induction src generalizing needed with
  | nil =>
    simp only [canLaunchSrcLoop, List.countP_nil]
    constructor
    · intro h; exact absurd h (by simp)
    · intro h; omega
  | cons s rest ih =>
    simp only [canLaunchSrcLoop, List.countP_cons]
    by_cases hq : (cancelAdjustedBusyness busymap crs s).canLaunch prio workFactor = true
    · rw [if_pos hq, if_pos hq]
      by_cases h1 : needed - 1 = 0
      · rw [if_pos h1]
        have : (0 : Int) ≤ (rest.countP
            (fun s => (cancelAdjustedBusyness busymap crs s).canLaunch prio workFactor) : Int) := by
          positivity
        simp only [true_iff]
        omega
      · rw [if_neg h1, ih (needed - 1) (by omega)]
        omega
    · rw [if_neg hq, if_neg hq, ih needed hneed]
      push_cast
      omega

theorem countP_ext (p q : α → Bool) (l : List α) (h : ∀ a ∈ l, p a = q a) :
    l.countP p = l.countP q := by
  induction l with
  | nil => rfl
  | cons a rest ih =>
    simp only [List.countP_cons, h a (List.mem_cons_self a rest),
      ih (fun b hb => h b (List.mem_cons_of_mem a hb))]

/-- A concrete knob assignment used only to instantiate theorems with
hypotheses at a specific input (values are the stock FoundationDB
defaults). -/
def sampleKnobs : Knobs where
  PRIORITY_TEAM_UNHEALTHY := 700
  PRIORITY_TEAM_2_LEFT := 709
  PRIORITY_TEAM_1_LEFT := 800
  PRIORITY_TEAM_0_LEFT := 999
  PRIORITY_POPULATE_REGION := 600
  PRIORITY_TEAM_REDUNDANT := 200
  PRIORITY_TEAM_HEALTHY := 140
  PRIORITY_TEAM_CONTAINS_UNDESIRED_SERVER := 150
  PRIORITY_PERPETUAL_STORAGE_WIGGLE := 139
  PRIORITY_SPLIT_SHARD := 950
  PRIORITY_MERGE_SHARD := 340
  RELOCATION_PARALLELISM_PER_SOURCE_SERVER := 2
  RELOCATION_PARALLELISM_PER_DEST_SERVER := 10
  USE_OLD_NEEDED_SERVERS := false
  MIN_SHARD_BYTES := 200000
  REBALANCE_MAX_RETRIES := 3

/-- A concrete `RelocateData` used only to instantiate theorems with
hypotheses at a specific input. -/
def sampleRelocation : RelocateData where
  keys := ⟨0, 10⟩
  priority := 120
  boundaryPriority := -1
  healthPriority := -1
  reason := RelocateReason.REBALANCE_DISK
  startTime := 5
  randomId := 7
  dataMoveId := 0
  workFactor := 0
  src := [1, 2, 3]
  completeSources := [1]
  completeDests := []
  wantsNewServers := true
  cancellable := true
  hasDataMove := false

/-- **C1.** For a non-restore relocation `rd` with non-empty `src` and
`workFactor` 0 (and `teamSize >= singleRegionTeamSize`, asserted by the
source), `canLaunchSrc` returns `true` iff at least
`min(|src|, teamSize - singleRegionTeamSize + 1)` servers of `rd.src`
(under `USE_OLD_NEEDED_SERVERS`: at least `max(1, |src| - teamSize + 1)`)
each satisfy `ledger[rd.priority/100] + workFactor <= 10000`, where each
server's ledger is first reduced by the `(priority, workFactor)` work of
every supplied cancellable relocation listing that server among its
sources, and `workFactor` is the source work factor of `rd`. -/
theorem canLaunchSrc_iff_enough_admitting_servers (K : Knobs) (rd : RelocateData)
    (teamSize singleRegionTeamSize : Int) (busymap : UID → Busyness)
    (cancellableRelocations : List RelocateData)
    (hrestore : rd.isRestore = false) (hwf : rd.workFactor = 0)
    (hsrc : rd.src ≠ []) (hteam : singleRegionTeamSize ≤ teamSize) :
    canLaunchSrc K rd teamSize singleRegionTeamSize busymap cancellableRelocations = true ↔
      (if K.USE_OLD_NEEDED_SERVERS then max 1 ((rd.src.length : Int) - teamSize + 1)
        else min (rd.src.length : Int) (teamSize - singleRegionTeamSize + 1)) ≤
        (rd.src.countP (fun s => decide
          ((cancelAdjustedBusyness busymap cancellableRelocations s).ledger.getD
              (prioBucket rd.priority) 0 +
            (getSrcWorkFactor K rd singleRegionTeamSize.toNat : Int) ≤ 10000)) : Int) := by
  have hlen : 1 ≤ (rd.src.length : Int) := by
    have := List.length_pos.mpr hsrc
    omega
  have hneed : 1 ≤ (if K.USE_OLD_NEEDED_SERVERS then
      max 1 ((rd.src.length : Int) - teamSize + 1)
      else min (rd.src.length : Int) (teamSize - singleRegionTeamSize + 1)) := by
    split
    · exact le_max_left 1 _
    · omega
  unfold canLaunchSrc
  rw [canLaunchSrcLoop_iff _ _ _ _ _ _ hneed]
  rw [countP_ext _ _ rd.src (fun s _ => ?_)]
  unfold Busyness.canLaunch WORK_FULL_UTILIZATION
  rcases le_or_lt ((cancelAdjustedBusyness busymap cancellableRelocations s).ledger.getD
      (prioBucket rd.priority) 0 +
      (getSrcWorkFactor K rd singleRegionTeamSize.toNat : Int)) 10000 with h | h
  · rw [decide_eq_true (by omega), decide_eq_true (by omega)]
  · rw [decide_eq_false (by omega), decide_eq_false (by omega)]

/-- Witness for C1: `canLaunchSrc_iff_enough_admitting_servers` applied at
a concrete input (three idle source servers, team size three, one
cancellable relocation). -/
theorem canLaunchSrc_iff_enough_admitting_servers_witness :
    canLaunchSrc sampleKnobs sampleRelocation 3 3 (fun _ => Busyness.init) [] = true ↔
      (if sampleKnobs.USE_OLD_NEEDED_SERVERS then
          max 1 ((sampleRelocation.src.length : Int) - 3 + 1)
        else min (sampleRelocation.src.length : Int) (3 - 3 + 1)) ≤
        (sampleRelocation.src.countP (fun s => decide
          ((cancelAdjustedBusyness (fun _ => Busyness.init) [] s).ledger.getD
              (prioBucket sampleRelocation.priority) 0 +
            (getSrcWorkFactor sampleKnobs sampleRelocation (3 : Int).toNat : Int) ≤ 10000)) : Int) :=
  canLaunchSrc_iff_enough_admitting_servers sampleKnobs sampleRelocation 3 3
    (fun _ => Busyness.init) [] (by decide) (by decide) (by decide) (by decide)

/-- Helper for C8: adding then subtracting the same work is the identity
on the ledger, bucket by bucket. -/
theorem addWorkLoop_cancel (bucket : Nat) (work : Int) :
    ∀ (i : Nat) (l : List Int),
      addWorkLoop bucket (-work) i (addWorkLoop bucket work i l) = l := by
  intro i l
  induction l generalizing i with
  | nil => rfl
  | cons v rest ih =>
    simp only [addWorkLoop, ih]
    by_cases h : i ≤ bucket
    · rw [if_pos h, if_pos h]
      simp
    · rw [if_neg h, if_neg h]

/-- **C8.** For every `Busyness` value `b`, priority `0 < p < 1000` and
work amount `w`: `addWork(p, w)` followed by `removeWork(p, w)` restores
the ledger to its initial value. -/
theorem addWork_removeWork_roundtrip (b : Busyness) (p w : Int)
    (h1 : 0 < p) (h2 : p < 1000) :
    ((b.addWork p w).removeWork p w).ledger = b.ledger := by
  show addWorkLoop (prioBucket p) (-w) 0 (addWorkLoop (prioBucket p) w 0 b.ledger) = b.ledger
  exact addWorkLoop_cancel (prioBucket p) w 0 b.ledger

/-- Witness for C8: the round trip at priority 120 and work 5000 on the
fresh ledger. -/
theorem addWork_removeWork_roundtrip_witness :
    ((Busyness.init.addWork 120 5000).removeWork 120 5000).ledger = Busyness.init.ledger :=
  addWork_removeWork_roundtrip Busyness.init 120 5000 (by decide) (by decide)

/-- **C10.** Under the asserted precondition `0 < priority < 1000` of
`canLaunch`, `addWork` and `removeWork`, the bucket `priority/100` lies in
`[0, 9]`, hence inside the 10-element ledger (`canLaunch` reads exactly
that index, and the `addWork` loop writes indices `0..priority/100`), and
the operations keep the ledger at 10 elements, so no out-of-bounds access
is reachable. -/
theorem busyness_access_in_bounds (b : Busyness) (p w : Int)
    (h1 : 0 < p) (h2 : p < 1000) (hlen : b.ledger.length = 10) :
    prioBucket p ≤ 9 ∧ prioBucket p < b.ledger.length ∧
      (b.addWork p w).ledger.length = 10 ∧ (b.removeWork p w).ledger.length = 10 := by
  have hb : prioBucket p ≤ 9 := by
    unfold prioBucket
    omega
  refine ⟨hb, by omega, ?_, ?_⟩
  · rw [addWork_length, hlen]
  · show (b.addWork p (-w)).ledger.length = 10
    rw [addWork_length, hlen]

/-- Witness for C10: the bounds at priority 950 on a fresh ledger. -/
theorem busyness_access_in_bounds_witness :
    prioBucket 950 ≤ 9 ∧ prioBucket 950 < Busyness.init.ledger.length ∧
      (Busyness.init.addWork 950 3).ledger.length = 10 ∧
      (Busyness.init.removeWork 950 3).ledger.length = 10 :=
  busyness_access_in_bounds Busyness.init 950 3 (by decide) (by decide) (by decide)

/-- **C6 counterexample.** Two `RelocateData` values that differ only in
`dataMoveId`, `completeDests` and `cancellable` compare *equal* under
`operator==`: the claim that such values are unequal is false at this
input. -/
theorem rdEq_counterexample :
    rdEq sampleRelocation
        { sampleRelocation with dataMoveId := 42, completeDests := [9], cancellable := false } =
      true ∧
    sampleRelocation.dataMoveId ≠ 42 ∧
    sampleRelocation.completeDests ≠ [9] ∧
    sampleRelocation.cancellable ≠ false := by
  decide

/-- **C6 (amended).** `operator==` compares exactly priority,
boundaryPriority, healthPriority, reason, keys, startTime, workFactor,
src, completeSources, wantsNewServers and randomId; it ignores
`dataMoveId`, `completeDests` and `cancellable`, so two values differing
only in those fields are equal. -/
theorem rdEq_iff_semantic_fields (a b : RelocateData) :
    rdEq a b = true ↔
      a.priority = b.priority ∧ a.boundaryPriority = b.boundaryPriority ∧
      a.healthPriority = b.healthPriority ∧ a.reason = b.reason ∧ a.keys = b.keys ∧
      a.startTime = b.startTime ∧ a.workFactor = b.workFactor ∧ a.src = b.src ∧
      a.completeSources = b.completeSources ∧ a.wantsNewServers = b.wantsNewServers ∧
      a.randomId = b.randomId := by
  simp [rdEq, and_assoc]

/-- `DDQueueData::DDDataMove`: the id recorded per key range for a durable
move; `isValid` is `id.isValid()`, i.e. the id differs from the invalid
default `UID()` (modelled as `0`).  The attached `cancel` future is
represented by the scheduled-cleanups output of the operations below. -/
structure DDDataMove where
  id : UID
deriving DecidableEq, Repr

def DDDataMove.isValid (d : DDDataMove) : Bool := decide (d.id ≠ 0)

/-- The part of an existing map entry that survives the insertion of
`r` (up to two pieces, left and right of `r`); entries disjoint from `r`
survive whole. -/
def clipOut (r : KeyRange) (e : KeyRange × α) : List (KeyRange × α) :=
  (if e.1.beginK < min e.1.endK r.beginK then [(⟨e.1.beginK, min e.1.endK r.beginK⟩, e.2)]
    else []) ++
  (if max e.1.beginK r.endK < e.1.endK then [(⟨max e.1.beginK r.endK, e.1.endK⟩, e.2)]
    else [])

/-- `KeyRangeMap::insert(r, v)` on the list model: replace exactly the
coverage of `r`, splitting straddling entries at its boundaries. -/
def krmInsert (m : List (KeyRange × α)) (r : KeyRange) (v : α) : List (KeyRange × α) :=
  (m.foldr (fun e acc => clipOut r e ++ acc) []) ++ [(r, v)]

/-- Result of `enqueueCancelledDataMove`: the updated `dataMoves` map, the
`cleanUpDataMove` calls scheduled, and whether a `SevError` conflict event
was traced. -/
structure EnqueueOutcome where
  dataMoves : List (KeyRange × DDDataMove)
  scheduledCleanups : List (UID × KeyRange)
  sevErrorTraced : Bool
deriving DecidableEq, Repr

/-- `DDQueueData::enqueueCancelledDataMove`: if any entry of `dataMoves`
intersecting `range` holds a valid id, trace `SevError` and return
without changes; otherwise record `DDDataMove(dataMoveId)` over `range`
and schedule `cleanUpDataMove` for it. -/
def enqueueCancelledDataMove (dataMoveId : UID) (range : KeyRange)
    (dataMoves : List (KeyRange × DDDataMove)) : EnqueueOutcome :=
  if (dataMoves.filter (fun e => e.1.overlaps range)).any (fun e => e.2.isValid) then
    ⟨dataMoves, [], true⟩
  else
    ⟨krmInsert dataMoves range ⟨dataMoveId⟩, [(dataMoveId, range)], false⟩

/-- **C5 counterexample.** An overlapping `dataMoves` entry holding the
*same* valid id as the requested `dataMoveId`: no overlapping entry holds
a *different* valid id (first conjunct), so the claim requires the call to
insert and schedule `cleanUpDataMove`, but the code traces `SevError` and
is a no-op (second conjunct). -/
theorem enqueueCancelledDataMove_counterexample :
    (∀ e ∈ [((⟨0, 10⟩ : KeyRange), (⟨5⟩ : DDDataMove))],
        e.1.overlaps ⟨0, 10⟩ = true → e.2.isValid = true → e.2.id = 5) ∧
    enqueueCancelledDataMove 5 ⟨0, 10⟩ [(⟨0, 10⟩, ⟨5⟩)] =
      ⟨[(⟨0, 10⟩, ⟨5⟩)], [], true⟩ := by
  decide

/-- **C5 (amended).** `enqueueCancelledDataMove(dataMoveId, range)`: if
some entry of `dataMoves` overlapping `range` holds *any* valid data-move
id — including one equal to `dataMoveId` — a `SevError` event is traced
and the call is a no-op; otherwise it inserts `DDDataMove(dataMoveId)`
over `range` and schedules `cleanUpDataMove` for that id and range. -/
theorem enqueueCancelledDataMove_spec (dataMoveId : UID) (range : KeyRange)
    (m : List (KeyRange × DDDataMove)) :
    ((∃ e ∈ m, e.1.overlaps range = true ∧ e.2.isValid = true) →
        enqueueCancelledDataMove dataMoveId range m = ⟨m, [], true⟩) ∧
    ((∀ e ∈ m, e.1.overlaps range = true → e.2.isValid = false) →
        enqueueCancelledDataMove dataMoveId range m =
          ⟨krmInsert m range ⟨dataMoveId⟩, [(dataMoveId, range)], false⟩) := by
  have hcond : (m.filter (fun e => e.1.overlaps range)).any (fun e => e.2.isValid) = true ↔
      ∃ e ∈ m, e.1.overlaps range = true ∧ e.2.isValid = true := by
    simp only [List.any_eq_true, List.mem_filter]
    constructor
    · rintro ⟨e, ⟨he, ho⟩, hv⟩; exact ⟨e, he, ho, hv⟩
    · rintro ⟨e, he, ho, hv⟩; exact ⟨e, ⟨he, ho⟩, hv⟩
  constructor
  · intro h
    rw [enqueueCancelledDataMove, if_pos (hcond.mpr h)]
  · intro h
    rw [enqueueCancelledDataMove, if_neg]
    rw [hcond]
    rintro ⟨e, he, ho, hv⟩
    rw [h e he ho] at hv
    exact Bool.false_ne_true hv

/-- Witness for C5 (amended): on an empty `dataMoves` map the call
records the move and schedules its cleanup. -/
theorem enqueueCancelledDataMove_spec_witness :
    enqueueCancelledDataMove 5 ⟨0, 10⟩ [] =
      ⟨krmInsert [] ⟨0, 10⟩ ⟨5⟩, [(5, ⟨0, 10⟩)], false⟩ :=
  (enqueueCancelledDataMove_spec 5 ⟨0, 10⟩ []).2 (by simp)

/-- Result of `rebalanceTeams`: the `RelocateShard`s sent on the output
stream and the returned Boolean. -/
structure RebalanceOutcome where
  emitted : List (KeyRange × RelocateReason)
  moved : Bool
deriving DecidableEq, Repr

/-- The sampling loop of `rebalanceTeams`
(`while (retries < REBALANCE_MAX_RETRIES)`): draw the next random shard
with its metrics, keep it when strictly larger than the best so far, and
break out as soon as the kept shard exceeds `averageShardBytes`.
`samples` is the stream of `(randomChoice, shard-metrics bytes)` results
the loop would observe; its length is `REBALANCE_MAX_RETRIES`. -/
def pickShardLoop (averageShardBytes : Int) :
    List (KeyRange × Int) → KeyRange × Int → KeyRange × Int
  | [], best => best
  | (testShard, testBytes) :: rest, best =>
      if testBytes > best.2 then
        if testBytes > averageShardBytes then (testShard, testBytes)
        else pickShardLoop averageShardBytes rest (testShard, testBytes)
      else pickShardLoop averageShardBytes rest best

/-- `rebalanceTeams` (disk rebalance), as a function of its external
inputs: the answered average shard size, the first
`shardsAffectedByTeamFailure->getShardsFor` snapshot (`shardsBefore`),
the sample stream of the retry loop, the two team loads, and the second
`getShardsFor` snapshot (`shardsAfter`) used to verify the chosen shard
is still present before emitting.  The simulation-speedup early return is
outside the model. -/
def rebalanceTeams (K : Knobs) (averageShardBytes : Int) (shardsBefore : List KeyRange)
    (samples : List (KeyRange × Int)) (sourceBytes destBytes : Int)
    (shardsAfter : List KeyRange) : RebalanceOutcome :=
  if shardsBefore.isEmpty then ⟨[], false⟩
  else
    let picked := pickShardLoop averageShardBytes samples (⟨0, 0⟩, 0)
    let sourceAndDestTooSimilar :=
      decide (sourceBytes - destBytes ≤ 3 * max K.MIN_SHARD_BYTES picked.2)
    if sourceAndDestTooSimilar || decide (picked.2 = 0) then ⟨[], false⟩
    else if shardsAfter.any (fun s => decide (s = picked.1)) then
      ⟨[(picked.1, RelocateReason.REBALANCE_DISK)], true⟩
    else ⟨[], false⟩

/-- **C7 counterexample.** With average shard size 3 and sample stream
`(shard [0,1), 5 bytes), (shard [1,2), 10 bytes), (shard [2,3), 2 bytes)`
(of length `REBALANCE_MAX_RETRIES = 3`), the first sample already exceeds
the average, so the loop stops and the emitted shard is `[0,1)` — not the
largest of the `REBALANCE_MAX_RETRIES` randomly chosen shards, which is
`[1,2)` with 10 bytes (all other reject conditions are off: the claim, as
stated, predicts a `RelocateShard` for `[1,2)`). -/
theorem rebalanceTeams_counterexample :
    (rebalanceTeams sampleKnobs 3 [⟨0, 1⟩, ⟨1, 2⟩, ⟨2, 3⟩]
        [(⟨0, 1⟩, 5), (⟨1, 2⟩, 10), (⟨2, 3⟩, 2)] 10000000 0
        [⟨0, 1⟩, ⟨1, 2⟩, ⟨2, 3⟩]).emitted =
      [(⟨0, 1⟩, RelocateReason.REBALANCE_DISK)] ∧
    ((⟨1, 2⟩ : KeyRange), (10 : Int)) ∈
      [((⟨0, 1⟩ : KeyRange), (5 : Int)), (⟨1, 2⟩, 10), (⟨2, 3⟩, 2)] ∧
    (5 : Int) < 10 := by
  decide

theorem pickShardLoop_max (avg : Int) (samples : List (KeyRange × Int)) :
    ∀ (best : KeyRange × Int), (pickShardLoop avg samples best).2 ≤ avg →
      best.2 ≤ (pickShardLoop avg samples best).2 ∧
        ∀ t ∈ samples, t.2 ≤ (pickShardLoop avg samples best).2 := by
  induction samples with
  | nil =>
    intro best _
    exact ⟨le_refl _, by simp⟩
  | cons t rest ih =>
    intro best hle
    obtain ⟨s, b⟩ := t
    by_cases hgt : b > best.2
    · by_cases havg : b > avg
      · rw [pickShardLoop, if_pos hgt, if_pos havg] at hle ⊢
        omega
      · rw [pickShardLoop, if_pos hgt, if_neg havg] at hle ⊢
        obtain ⟨h1, h2⟩ := ih (s, b) hle
        refine ⟨by omega, ?_⟩
        intro u hu
        rcases List.mem_cons.mp hu with h | h
        · rw [h]; exact h1
        · exact h2 u h
    · rw [pickShardLoop, if_neg hgt] at hle ⊢
      obtain ⟨h1, h2⟩ := ih best hle
      refine ⟨h1, ?_⟩
      intro u hu
      rcases List.mem_cons.mp hu with h | h
      · rw [h]; simp only []; omega
      · exact h2 u h

/-- **C7 (amended).** `rebalanceTeams` requests the average shard size and
samples up to `REBALANCE_MAX_RETRIES` random shards of the source team,
keeping the largest so far and stopping early as soon as the kept shard
exceeds the average (so when no sample exceeds the average, the kept
shard is the largest of all `REBALANCE_MAX_RETRIES` samples — first
conjunct).  Then, with `shardBytes` the kept shard's size: if
`sourceBytes − destBytes ≤ 3·max(MIN_SHARD_BYTES, shardBytes)`, or
`shardBytes == 0`, or the kept shard is no longer among the source team's
shards, it emits nothing and returns false; otherwise it sends one
`RelocateShard` for the kept shard with reason `REBALANCE_DISK` and
returns true. -/
theorem rebalanceTeams_spec (K : Knobs) (averageShardBytes : Int)
    (shardsBefore : List KeyRange) (samples : List (KeyRange × Int))
    (sourceBytes destBytes : Int) (shardsAfter : List KeyRange)
    (hne : shardsBefore ≠ []) :
    ((pickShardLoop averageShardBytes samples (⟨0, 0⟩, 0)).2 ≤ averageShardBytes →
      ∀ t ∈ samples, t.2 ≤ (pickShardLoop averageShardBytes samples (⟨0, 0⟩, 0)).2) ∧
    rebalanceTeams K averageShardBytes shardsBefore samples sourceBytes destBytes shardsAfter =
      (if sourceBytes - destBytes ≤
            3 * max K.MIN_SHARD_BYTES (pickShardLoop averageShardBytes samples (⟨0, 0⟩, 0)).2 ∨
          (pickShardLoop averageShardBytes samples (⟨0, 0⟩, 0)).2 = 0 ∨
          ¬ (pickShardLoop averageShardBytes samples (⟨0, 0⟩, 0)).1 ∈ shardsAfter then
        ⟨[], false⟩
      else ⟨[((pickShardLoop averageShardBytes samples (⟨0, 0⟩, 0)).1,
          RelocateReason.REBALANCE_DISK)], true⟩) := by
  constructor
  · intro h
    exact (pickShardLoop_max averageShardBytes samples (⟨0, 0⟩, 0) h).2
  · rw [rebalanceTeams, if_neg (by simpa using hne)]
    set picked := pickShardLoop averageShardBytes samples (⟨0, 0⟩, 0) with hp
    have hmem : (shardsAfter.any (fun s => decide (s = picked.1)) = true) ↔
        picked.1 ∈ shardsAfter := by
      simp only [List.any_eq_true, decide_eq_true_eq]
      constructor
      · rintro ⟨s, hs, rfl⟩; exact hs
      · intro h; exact ⟨picked.1, h, rfl⟩
    by_cases h1 : sourceBytes - destBytes ≤ 3 * max K.MIN_SHARD_BYTES picked.2
    · rw [if_pos, if_pos (by left; exact h1)]
      simp [h1]
    · by_cases h2 : picked.2 = 0
      · rw [if_pos, if_pos (by right; left; exact h2)]
        simp [h1, h2]
      · rw [if_neg (by simp [h1, h2])]
        by_cases h3 : picked.1 ∈ shardsAfter
        · rw [if_pos (hmem.mpr h3), if_neg (by simp [h1, h2, h3])]
        · rw [if_neg (by simp [hmem, h3]), if_pos (by right; right; exact h3)]

/-- Witness for C7 (amended): the theorem applied at the counterexample's
concrete input (the reject conditions are off and the kept shard is still
present, so exactly one `RelocateShard` is emitted). -/
theorem rebalanceTeams_spec_witness :
    rebalanceTeams sampleKnobs 3 [⟨0, 1⟩, ⟨1, 2⟩, ⟨2, 3⟩]
        [(⟨0, 1⟩, 5), (⟨1, 2⟩, 10), (⟨2, 3⟩, 2)] 10000000 0 [⟨0, 1⟩, ⟨1, 2⟩, ⟨2, 3⟩] =
      (if (10000000 : Int) - 0 ≤
            3 * max sampleKnobs.MIN_SHARD_BYTES
              (pickShardLoop 3 [(⟨0, 1⟩, 5), (⟨1, 2⟩, 10), (⟨2, 3⟩, 2)] (⟨0, 0⟩, 0)).2 ∨
          (pickShardLoop 3 [(⟨0, 1⟩, 5), (⟨1, 2⟩, 10), (⟨2, 3⟩, 2)] (⟨0, 0⟩, 0)).2 = 0 ∨
          ¬ (pickShardLoop 3 [(⟨0, 1⟩, 5), (⟨1, 2⟩, 10), (⟨2, 3⟩, 2)] (⟨0, 0⟩, 0)).1 ∈
            [(⟨0, 1⟩ : KeyRange), ⟨1, 2⟩, ⟨2, 3⟩] then
        ⟨[], false⟩
      else ⟨[((pickShardLoop 3 [(⟨0, 1⟩, 5), (⟨1, 2⟩, 10), (⟨2, 3⟩, 2)] (⟨0, 0⟩, 0)).1,
          RelocateReason.REBALANCE_DISK)], true⟩) :=
  (rebalanceTeams_spec sampleKnobs 3 [⟨0, 1⟩, ⟨1, 2⟩, ⟨2, 3⟩]
      [(⟨0, 1⟩, 5), (⟨1, 2⟩, 10), (⟨2, 3⟩, 2)] 10000000 0 [⟨0, 1⟩, ⟨1, 2⟩, ⟨2, 3⟩]
      (by decide)).2

/-- The queue state read by the per-candidate launch decision of
`launchQueuedWork`: the `inFlight` range map (modelled as its list of
entries), the `fetchKeysComplete` set, `inFlightActors.liveActorAt`, and
the source busyness map. -/
structure LaunchState where
  inFlight : List (KeyRange × RelocateData)
  fetchKeysComplete : List RelocateData
  liveActorAt : Key → Bool
  busymap : UID → Busyness

/-- The `overlappingInFlight` loop of `launchQueuedWork` over
`inFlight.intersectingRanges(rd.keys)` (the loop breaks at the first hit;
`any` is that loop). -/
def overlappingInFlightCheck (K : Knobs) (st : LaunchState) (rd : RelocateData) : Bool :=
  (st.inFlight.filter (fun e => e.1.overlaps rd.keys)).any (fun e =>
    memKey st.fetchKeysComplete e.2 && st.liveActorAt e.1.beginK &&
    !(rd.keys.containsRange e.1) && decide (e.2.priority ≥ rd.priority) &&
    decide (rd.healthPriority < K.PRIORITY_TEAM_UNHEALTHY))

/-- `cancellableRelocations`: the in-flight entries fully contained in
`rd.keys` that are still cancellable. -/
def cancellableRelocationsFor (st : LaunchState) (rd : RelocateData) : List RelocateData :=
  ((st.inFlight.filter (fun e => rd.keys.containsRange e.1)).filter
    (fun e => e.2.cancellable)).map (fun e => e.2)

/-- How one candidate fares in `launchQueuedWork`'s loop before any state
is mutated: skipped at the overlapping-in-flight check, rejected at the
`canLaunchSrc` admission check, or admitted for launch.  Both `continue`
branches leave every queue structure unchanged for that candidate. -/
inductive LaunchDecision where
  | skippedOverlap
  | rejectedSrc
  | admitted
deriving DecidableEq, Repr

/-- The decision prefix of one iteration of `launchQueuedWork` for a
candidate `rd` (source lines: the overlapping-in-flight check, the
collection of cancellable contained relocations, and the
`!rd.isRestore() && !canLaunchSrc(...)` rejection). -/
def launchDecisionFor (K : Knobs) (teamSize singleRegionTeamSize : Int) (st : LaunchState)
    (rd : RelocateData) : LaunchDecision :=
  if overlappingInFlightCheck K st rd then LaunchDecision.skippedOverlap
  else if !rd.isRestore && !canLaunchSrc K rd teamSize singleRegionTeamSize st.busymap
      (cancellableRelocationsFor st rd) then
    LaunchDecision.rejectedSrc
  else LaunchDecision.admitted

/-- **C2.** A candidate `rd` (not a restore — the skip branch asserts
this) is skipped by `launchQueuedWork` for the round exactly when some
in-flight entry overlapping `rd.keys` is in `fetchKeysComplete`, has a
live actor at its range's begin, is not fully contained in `rd.keys`, has
priority ≥ `rd.priority`, and `rd.healthPriority < PRIORITY_TEAM_UNHEALTHY`;
otherwise the iteration proceeds to the `canLaunchSrc` admission check. -/
theorem launchDecision_skips_iff (K : Knobs) (teamSize singleRegionTeamSize : Int)
    (st : LaunchState) (rd : RelocateData) (hrestore : rd.isRestore = false) :
    (launchDecisionFor K teamSize singleRegionTeamSize st rd = LaunchDecision.skippedOverlap ↔
      ∃ e ∈ st.inFlight, e.1.overlaps rd.keys = true ∧
        (∃ x ∈ st.fetchKeysComplete, sameKey x e.2 = true) ∧
        st.liveActorAt e.1.beginK = true ∧ rd.keys.containsRange e.1 = false ∧
        rd.priority ≤ e.2.priority ∧ rd.healthPriority < K.PRIORITY_TEAM_UNHEALTHY) ∧
    (launchDecisionFor K teamSize singleRegionTeamSize st rd ≠ LaunchDecision.skippedOverlap →
      (launchDecisionFor K teamSize singleRegionTeamSize st rd = LaunchDecision.admitted ↔
        canLaunchSrc K rd teamSize singleRegionTeamSize st.busymap
          (cancellableRelocationsFor st rd) = true)) := by
  have hcond : overlappingInFlightCheck K st rd = true ↔
      ∃ e ∈ st.inFlight, e.1.overlaps rd.keys = true ∧
        (∃ x ∈ st.fetchKeysComplete, sameKey x e.2 = true) ∧
        st.liveActorAt e.1.beginK = true ∧ rd.keys.containsRange e.1 = false ∧
        rd.priority ≤ e.2.priority ∧ rd.healthPriority < K.PRIORITY_TEAM_UNHEALTHY := by
    simp only [overlappingInFlightCheck, List.any_eq_true, List.mem_filter, memKey,
      Bool.and_eq_true, Bool.not_eq_true', decide_eq_true_eq, ge_iff_le]
    constructor
    · rintro ⟨e, ⟨he, ho⟩, ⟨⟨⟨hf, hl⟩, hc⟩, hp⟩, hh⟩
      exact ⟨e, he, ho, hf, hl, hc, hp, hh⟩
    · rintro ⟨e, he, ho, hf, hl, hc, hp, hh⟩
      exact ⟨e, ⟨he, ho⟩, ⟨⟨⟨hf, hl⟩, hc⟩, hp⟩, hh⟩
  by_cases hov : overlappingInFlightCheck K st rd = true
  · refine ⟨?_, ?_⟩
    · rw [launchDecisionFor, if_pos hov]
      simp only [true_iff]
      exact hcond.mp hov
    · intro hne
      exact absurd (by rw [launchDecisionFor, if_pos hov]) hne
  · have hdec : launchDecisionFor K teamSize singleRegionTeamSize st rd =
        (if !canLaunchSrc K rd teamSize singleRegionTeamSize st.busymap
            (cancellableRelocationsFor st rd) then
          LaunchDecision.rejectedSrc
        else LaunchDecision.admitted) := by
      rw [launchDecisionFor, if_neg hov, hrestore]
      simp
    refine ⟨?_, ?_⟩
    · rw [hdec]
      constructor
      · intro h
        split at h <;> exact absurd h (by simp)
      · intro h
        exact absurd (hcond.mpr h) hov
    · intro _
      rw [hdec]
      by_cases hcl : canLaunchSrc K rd teamSize singleRegionTeamSize st.busymap
          (cancellableRelocationsFor st rd) = true
      · simp [hcl]
      · simp only [Bool.not_eq_true] at hcl
        simp [hcl]

/-- A concrete launch state (no in-flight work, idle servers) used only to
instantiate theorems at a specific input. -/
def sampleLaunchState : LaunchState where
  inFlight := []
  fetchKeysComplete := []
  liveActorAt := fun _ => false
  busymap := fun _ => Busyness.init

/-- Witness for C2: the decision for `sampleRelocation` against an empty
in-flight map is never the overlap skip, and admission is exactly
`canLaunchSrc`. -/
theorem launchDecision_skips_iff_witness :
    (launchDecisionFor sampleKnobs 3 3 sampleLaunchState sampleRelocation =
        LaunchDecision.skippedOverlap ↔
      ∃ e ∈ sampleLaunchState.inFlight, e.1.overlaps sampleRelocation.keys = true ∧
        (∃ x ∈ sampleLaunchState.fetchKeysComplete, sameKey x e.2 = true) ∧
        sampleLaunchState.liveActorAt e.1.beginK = true ∧
        sampleRelocation.keys.containsRange e.1 = false ∧
        sampleRelocation.priority ≤ e.2.priority ∧
        sampleRelocation.healthPriority < sampleKnobs.PRIORITY_TEAM_UNHEALTHY) ∧
    (launchDecisionFor sampleKnobs 3 3 sampleLaunchState sampleRelocation ≠
        LaunchDecision.skippedOverlap →
      (launchDecisionFor sampleKnobs 3 3 sampleLaunchState sampleRelocation =
          LaunchDecision.admitted ↔
        canLaunchSrc sampleKnobs sampleRelocation 3 3 sampleLaunchState.busymap
          (cancellableRelocationsFor sampleLaunchState sampleRelocation) = true)) :=
  launchDecision_skips_iff sampleKnobs 3 3 sampleLaunchState sampleRelocation (by decide)

/-- `std::set::insert` on the combined candidate set: a no-op when an
element with the same comparator key is already present. -/
def setInsert (l : List RelocateData) (r : RelocateData) : List RelocateData :=
  if memKey l r then l else l ++ [r]

/-- The candidate set built by the source-servers overload of
`launchQueuedWork`: for each listed server, insert the first `teamSize`
entries of its queue (the per-server queues iterate in `rdGT` order:
priority descending, then startTime ascending, then randomId
descending). -/
def combinedFromServers (queue : UID → List RelocateData) (teamSize : Nat)
    (serversToLaunchFrom : List UID) : List RelocateData :=
  serversToLaunchFrom.foldl
    (fun combined id => ((queue id).take teamSize).foldl setInsert combined) []

theorem foldl_setInsert_preserves (P : RelocateData → Prop) (l : List RelocateData)
    (acc : List RelocateData) (hacc : ∀ x ∈ acc, P x) (hl : ∀ x ∈ l, P x) :
    ∀ x ∈ l.foldl setInsert acc, P x := by
  induction l generalizing acc with
  | nil => exact hacc
  | cons y rest ih =>
    simp only [List.foldl_cons]
    refine ih _ ?_ (fun x hx => hl x (List.mem_cons_of_mem y hx))
    intro x hx
    unfold setInsert at hx
    split at hx
    · exact hacc x hx
    · rcases List.mem_append.mp hx with h | h
      · exact hacc x h
      · rw [List.mem_singleton.mp h]
        exact hl y (List.mem_cons_self y rest)

/-- **C9.** The source-servers overload of `launchQueuedWork` considers
only the first `teamSize` entries of each listed server's queue: a queued
relocation that is not among the first `teamSize` entries of the queue of
any server in the supplied set does not enter the combined candidate set
of that pass. -/
theorem combinedFromServers_only_top (queue : UID → List RelocateData) (teamSize : Nat)
    (servers : List UID) (rd : RelocateData)
    (h : ∀ s ∈ servers, ∀ x ∈ (queue s).take teamSize, sameKey x rd = false) :
    ∀ x ∈ combinedFromServers queue teamSize servers, sameKey x rd = false := by
  unfold combinedFromServers
  suffices hgen : ∀ (acc : List RelocateData), (∀ x ∈ acc, sameKey x rd = false) →
      ∀ x ∈ servers.foldl
        (fun combined id => ((queue id).take teamSize).foldl setInsert combined) acc,
      sameKey x rd = false by
    exact hgen [] (by simp)
  induction servers with
  | nil =>
    intro acc hacc
    exact hacc
  | cons s rest ih =>
    intro acc hacc
    simp only [List.foldl_cons]
    refine ih (fun t ht x hx => h t (List.mem_cons_of_mem s ht) x hx) _ ?_
    exact foldl_setInsert_preserves _ _ acc hacc (h s (List.mem_cons_self s rest))

/-- Witness for C9: a two-deep queue on server 1 with `teamSize = 1`; the
second-ranked relocation is excluded from the combined set. -/
theorem combinedFromServers_only_top_witness :
    (combinedFromServers
        (fun s => if s = 1 then
          [sampleRelocation, { sampleRelocation with priority := 110, randomId := 3 }] else [])
        1 [1]).all
      (fun x => !sameKey x { sampleRelocation with priority := 110, randomId := 3 }) = true := by
  have h := combinedFromServers_only_top
    (fun s => if s = 1 then
      [sampleRelocation, { sampleRelocation with priority := 110, randomId := 3 }] else [])
    1 [1] { sampleRelocation with priority := 110, randomId := 3 } (by decide)
  rw [List.all_eq_true]
  intro x hx
  rw [Bool.not_eq_true']
  exact h x hx

/-- A `std::map<UID, Busyness>` update as performed by `launch`,
`launchDest`, `complete` and `completeDest`: one `addWork`/`removeWork`
call per listed server (`operator[]` default-constructs an all-zero
ledger on first access, which the total-function model builds in). -/
def addToMap (m : UID → Busyness) (ids : List UID) (prio work : Int) : UID → Busyness :=
  ids.foldl (fun m' id => fun u => if u = id then (m' u).addWork prio work else m' u) m

/-- One launched relocation outstanding in the busyness ledgers: its
priority, the source work factor assigned by `launch`, its source
servers, the destination servers currently recorded in `completeDests`
(empty until `launchDest`, cleared again by the `move_to_removed_server`
retry path), and whether the relocation's single `dataTransferComplete`
message was already consumed by `complete` (the relocator's
`signalledTransferComplete` flag makes that message unique per
relocation). -/
structure OutRec where
  prio : Int
  wf : Nat
  src : List UID
  dests : List UID
  completed : Bool
deriving DecidableEq, Repr

/-- The two busyness maps of `DDQueueData` together with the launched
relocations currently backing them. -/
structure BusyState where
  busymap : UID → Busyness
  destBusymap : UID → Busyness
  outstanding : List OutRec

/-- The empty queue state the busyness machine starts from. -/
def initialBusyState : BusyState :=
  ⟨fun _ => Busyness.init, fun _ => Busyness.init, []⟩

/-- `launch` (in `launchQueuedWork`): set `workFactor = getSrcWorkFactor`
and `addWork(priority, workFactor)` on each source server (`addWork`
asserts `0 < priority < 1000`). -/
def launchUpdate (K : Knobs) (singleRegionTeamSize : Nat) (s : BusyState)
    (rd : RelocateData) : BusyState :=
  ⟨addToMap s.busymap rd.src rd.priority (getSrcWorkFactor K rd singleRegionTeamSize),
    s.destBusymap,
    ⟨rd.priority, getSrcWorkFactor K rd singleRegionTeamSize, rd.src, [], false⟩ ::
      s.outstanding⟩

/-- `launchDest` at the relocator's destination commit (`completeDests`
asserted empty there): record the destination servers and
`addWork(priority, destWorkFactor)` on each. -/
def launchDestUpdate (K : Knobs) (s : BusyState) (l₁ l₂ : List OutRec) (r : OutRec)
    (ds : List UID) : BusyState :=
  ⟨s.busymap, addToMap s.destBusymap ds r.prio (getDestWorkFactor K),
    l₁ ++ { r with dests := ds } :: l₂⟩

/-- `complete` (the `dataTransferComplete` handler of the main loop):
`removeWork(priority, workFactor)` on each source server and
`completeDest` on the recorded destinations.  The relocation's record
survives: the relocator keeps running when transfer-complete was
signalled early (the destinations turned unhealthy at a health poll, or
only the second-phase move of a cross-DC relocation remains). -/
def completeUpdate (K : Knobs) (s : BusyState) (l₁ l₂ : List OutRec) (r : OutRec) :
    BusyState :=
  ⟨addToMap s.busymap r.src r.prio (-(r.wf : Int)),
    addToMap s.destBusymap r.dests r.prio (-(getDestWorkFactor K : Int)),
    l₁ ++ { r with completed := true } :: l₂⟩

/-- The `move_to_removed_server` retry branch of the relocator:
`completeDest(rd, destBusymap)` followed by `rd.completeDests.clear()`,
performed unconditionally — also when `complete` already removed the
same destination work. -/
def retryCompleteDestUpdate (K : Knobs) (s : BusyState) (l₁ l₂ : List OutRec)
    (r : OutRec) : BusyState :=
  ⟨s.busymap, addToMap s.destBusymap r.dests r.prio (-(getDestWorkFactor K : Int)),
    l₁ ++ { r with dests := [] } :: l₂⟩

/-- The `relocationComplete` handler: counters and `fetchKeysComplete`
bookkeeping only — it touches neither busyness map; the relocation's
record ends. -/
def finishUpdate (s : BusyState) (l₁ l₂ : List OutRec) : BusyState :=
  ⟨s.busymap, s.destBusymap, l₁ ++ l₂⟩

/-- The states reachable by the queue's busyness operations, paired as
the scheduler pairs them (one constructor per call site):
* `launch` in `launchQueuedWork`;
* `launchDest` at the relocator's destination commit — possible again
  after a retry cleared `completeDests`;
* `complete` in the `dataTransferComplete` handler, at most once per
  relocation (guarded by the relocator's `signalledTransferComplete`):
  on `dataMovementComplete`, or early when the health poll finds the
  destinations unhealthy, or at relocator exit;
* `retryCompleteDest`, the `move_to_removed_server` retry, which runs
  `completeDest` and clears `completeDests` whether or not `complete`
  already removed that same destination work;
* `finish`, the `relocationComplete` handler (no ledger change).
A `complete` still pending in the stream while the retry runs removes
the same destination work as the fused `complete`-then-`retryCompleteDest`
order modelled here; `addWork`/`removeWork` commute, so the reachable
maps agree. -/
inductive Reach (K : Knobs) (singleRegionTeamSize : Nat) : BusyState → Prop where
  | init : Reach K singleRegionTeamSize initialBusyState
  | launch {s : BusyState} (hs : Reach K singleRegionTeamSize s) (rd : RelocateData)
      (h1 : 0 < rd.priority) (h2 : rd.priority < 1000) :
      Reach K singleRegionTeamSize (launchUpdate K singleRegionTeamSize s rd)
  | launchDest {s : BusyState} (hs : Reach K singleRegionTeamSize s)
      (l₁ l₂ : List OutRec) (r : OutRec) (hout : s.outstanding = l₁ ++ r :: l₂)
      (hdests : r.dests = []) (ds : List UID) :
      Reach K singleRegionTeamSize (launchDestUpdate K s l₁ l₂ r ds)
  | complete {s : BusyState} (hs : Reach K singleRegionTeamSize s)
      (l₁ l₂ : List OutRec) (r : OutRec) (hout : s.outstanding = l₁ ++ r :: l₂)
      (hc : r.completed = false) :
      Reach K singleRegionTeamSize (completeUpdate K s l₁ l₂ r)
  | retryCompleteDest {s : BusyState} (hs : Reach K singleRegionTeamSize s)
      (l₁ l₂ : List OutRec) (r : OutRec) (hout : s.outstanding = l₁ ++ r :: l₂) :
      Reach K singleRegionTeamSize (retryCompleteDestUpdate K s l₁ l₂ r)
  | finish {s : BusyState} (hs : Reach K singleRegionTeamSize s)
      (l₁ l₂ : List OutRec) (r : OutRec) (hout : s.outstanding = l₁ ++ r :: l₂) :
      Reach K singleRegionTeamSize (finishUpdate s l₁ l₂)

/-- The relocation of the C4 failing run (priority 120, sources 1, 2, 3)
as it sits in the ledgers right after `launch`. -/
def bugRec : OutRec :=
  ⟨sampleRelocation.priority, getSrcWorkFactor sampleKnobs sampleRelocation 3,
    sampleRelocation.src, [], false⟩

/-- C4 failing run, step 1: `launchQueuedWork` launches the relocation. -/
def bugStateLaunched : BusyState :=
  launchUpdate sampleKnobs 3 initialBusyState sampleRelocation

/-- C4 failing run, step 2: the relocator commits destination server 7
(`launchDest`). -/
def bugStateDest : BusyState :=
  launchDestUpdate sampleKnobs bugStateLaunched [] [] bugRec [7]

/-- C4 failing run, step 3: the health poll finds the destination
unhealthy, the relocator signals transfer-complete, and the
`dataTransferComplete` handler runs `complete` (removing the source work
and the destination work for server 7). -/
def bugStateCompleted : BusyState :=
  completeUpdate sampleKnobs bugStateDest [] [] { bugRec with dests := [7] }

/-- C4 failing run, step 4: `moveKeys` fails with
`move_to_removed_server` and the retry branch runs `completeDest` again
for the same `completeDests`. -/
def bugStateFinal : BusyState :=
  retryCompleteDestUpdate sampleKnobs bugStateCompleted [] []
    { bugRec with dests := [7], completed := true }

/-- **C4 (code bug).** The four-step run `launch; launchDest; complete;
retryCompleteDest` — produced by the scheduler whenever `moveKeys` fails
with `move_to_removed_server` after the relocator already signalled
transfer-complete (the destinations went unhealthy at a health poll, or
the first phase of a cross-DC move had finished) — is reachable, and it
leaves `destBusymap[7]` with ledger `[-1000, -1000, 0, …]`: negative,
and ascending from bucket 1 to bucket 2.  These are exactly the two
conditions the code's own `validate()` traces as `SevError`
(`DDQueueValidateError16`/`17`), and the opposite of the claimed
invariant: the retry's `completeDest` removes destination work that
`complete` had already removed. -/
theorem destBusymap_invariant_violated :
    Reach sampleKnobs 3 bugStateFinal ∧
      (bugStateFinal.destBusymap 7).ledger.getD 1 0 < 0 ∧
      (bugStateFinal.destBusymap 7).ledger.getD 1 0 <
        (bugStateFinal.destBusymap 7).ledger.getD 2 0 := by
  refine ⟨?_, by decide, by decide⟩
  exact Reach.retryCompleteDest
    (Reach.complete
      (Reach.launchDest (Reach.launch Reach.init sampleRelocation (by decide) (by decide))
        [] [] bugRec rfl rfl [7])
      [] [] { bugRec with dests := [7] } rfl rfl)
    [] [] { bugRec with dests := [7], completed := true } rfl

/-- `RelocateData::isHealthPriority`. -/
def isHealthPriority (K : Knobs) (priority : Int) : Bool :=
  decide (priority = K.PRIORITY_POPULATE_REGION) ||
  decide (priority = K.PRIORITY_TEAM_UNHEALTHY) ||
  decide (priority = K.PRIORITY_TEAM_2_LEFT) ||
  decide (priority = K.PRIORITY_TEAM_1_LEFT) ||
  decide (priority = K.PRIORITY_TEAM_0_LEFT) ||
  decide (priority = K.PRIORITY_TEAM_REDUNDANT) ||
  decide (priority = K.PRIORITY_TEAM_HEALTHY) ||
  decide (priority = K.PRIORITY_TEAM_CONTAINS_UNDESIRED_SERVER) ||
  decide (priority = K.PRIORITY_PERPETUAL_STORAGE_WIGGLE)

/-- `RelocateData::isBoundaryPriority`. -/
def isBoundaryPriority (K : Knobs) (priority : Int) : Bool :=
  decide (priority = K.PRIORITY_SPLIT_SHARD) || decide (priority = K.PRIORITY_MERGE_SHARD)

/-- The queue structures `queueRelocation`'s merge/cancel loop reads and
mutates, together with what it accumulates for the later phases: the
servers to reconsider, the `queuedRelocations` counter, and the
`(priority, healthPriority)` pairs passed to `finishRelocation`. -/
structure InheritCtx where
  fetchingSourcesQueue : List RelocateData
  queue : UID → List RelocateData
  serversToLaunchFrom : List UID
  queuedRelocations : Int
  finishedRelocations : List (Int × Int)

/-- `fetchingSourcesQueue.find(rrs) != end()`. -/
def foundActiveFetchingIn (ctx : InheritCtx) (rrs : RelocateData) : Bool :=
  memKey ctx.fetchingSourcesQueue rrs

/-- `!foundActiveFetching && rrs.src.size()` and
`queue[rrs.src[0]].find(rrs) != end()`. -/
def foundActiveRelocationIn (ctx : InheritCtx) (rrs : RelocateData) : Bool :=
  if foundActiveFetchingIn ctx rrs then false
  else
    match rrs.src with
    | [] => false
    | s0 :: _ => memKey (ctx.queue s0) rrs

/-- An intersecting entry is active when found in `fetchingSourcesQueue`
or in the per-server queue of its `src[0]`. -/
def activeIn (ctx : InheritCtx) (rrs : RelocateData) : Bool :=
  foundActiveFetchingIn ctx rrs || foundActiveRelocationIn ctx rrs

/-- One iteration of the `queueMap.intersectingRanges(rd.keys)` loop of
`queueRelocation`: inherit relocation intent from an active entry, erase
a fully contained entry from its queues, and do the active-entry
bookkeeping (`serversToLaunchFrom`, `queuedRelocations--`,
`finishRelocation`). -/
def inheritStep (hasHealthPriority hasBoundaryPriority : Bool) (rdKeys : KeyRange)
    (st : RelocateData × InheritCtx) (rrs : RelocateData) : RelocateData × InheritCtx :=
  let rd := st.1
  let ctx := st.2
  let faf := foundActiveFetchingIn ctx rrs
  let far := foundActiveRelocationIn ctx rrs
  let rdOut :=
    if faf || far then
      let rdInh := { rd with
        wantsNewServers := rd.wantsNewServers || rrs.wantsNewServers,
        startTime := min rd.startTime rrs.startTime,
        healthPriority :=
          if hasHealthPriority then rd.healthPriority
          else max rd.healthPriority rrs.healthPriority,
        boundaryPriority :=
          if hasBoundaryPriority then rd.boundaryPriority
          else max rd.boundaryPriority rrs.boundaryPriority }
      { rdInh with
        priority := max rdInh.priority (max rdInh.boundaryPriority rdInh.healthPriority) }
    else rd
  let ctxErased :=
    if rdKeys.containsRange rrs.keys then
      if faf then
        { ctx with fetchingSourcesQueue := eraseKey ctx.fetchingSourcesQueue rrs }
      else if far then
        { ctx with queue := fun u =>
            if rrs.src.contains u then eraseKey (ctx.queue u) rrs else ctx.queue u }
      else ctx
    else ctx
  let ctxOut :=
    if faf || far then
      { ctxErased with
        serversToLaunchFrom := ctxErased.serversToLaunchFrom ++ rrs.src,
        queuedRelocations := ctxErased.queuedRelocations - 1,
        finishedRelocations := ctxErased.finishedRelocations ++
          [(rrs.priority, rrs.healthPriority)] }
    else ctxErased
  (rdOut, ctxOut)

/-- The whole merge/cancel loop: fold `inheritStep` over the entries of
`queueMap.intersectingRanges(rd.keys)` in order. -/
def inheritLoop (hasHealthPriority hasBoundaryPriority : Bool) (rdKeys : KeyRange)
    (rd : RelocateData) (ctx : InheritCtx) (entries : List RelocateData) :
    RelocateData × InheritCtx :=
  entries.foldl (inheritStep hasHealthPriority hasBoundaryPriority rdKeys) (rd, ctx)

/-- The merge/cancel prefix of `queueRelocation` for a fresh `rd`:
`hasHealthPriority`/`hasBoundaryPriority` are computed once from
`rd.priority` before the loop. -/
def queueRelocationInherit (K : Knobs) (rd : RelocateData) (ctx : InheritCtx)
    (entries : List RelocateData) : RelocateData × InheritCtx :=
  inheritLoop (isHealthPriority K rd.priority) (isBoundaryPriority K rd.priority)
    rd.keys rd ctx entries

/-- The subsequence of intersecting entries on which the loop's active
test succeeds, each entry judged against the queue state at its own
iteration.  The loop erases superseded entries as it goes, so a later
entry that shares the `(priority, startTime, randomId)` comparator key
with an earlier fully-contained one — reachable when `queueMap`'s
insertion splitting leaves several pieces of one relocation — is found
inactive even if it was active against the initial state. -/
def activesOf (hasHealthPriority hasBoundaryPriority : Bool) (rdKeys : KeyRange) :
    RelocateData → InheritCtx → List RelocateData → List RelocateData
  | _, _, [] => []
  | rd, ctx, rrs :: rest =>
      (if activeIn ctx rrs then [rrs] else []) ++
        activesOf hasHealthPriority hasBoundaryPriority rdKeys
          (inheritStep hasHealthPriority hasBoundaryPriority rdKeys (rd, ctx) rrs).1
          (inheritStep hasHealthPriority hasBoundaryPriority rdKeys (rd, ctx) rrs).2 rest

theorem inheritStep_rd_inactive (hh hb : Bool) (rdKeys : KeyRange) (rd : RelocateData)
    (ctx : InheritCtx) (h : RelocateData) (hina : activeIn ctx h = false) :
    (inheritStep hh hb rdKeys (rd, ctx) h).1 = rd := by
  have hcond : (foundActiveFetchingIn ctx h || foundActiveRelocationIn ctx h) = false := hina
  unfold inheritStep
  dsimp only
  rw [if_neg (by rw [hcond]; exact Bool.false_ne_true)]

theorem inheritStep_rd_active (hh hb : Bool) (rdKeys : KeyRange) (rd : RelocateData)
    (ctx : InheritCtx) (h : RelocateData) (hact : activeIn ctx h = true) :
    (inheritStep hh hb rdKeys (rd, ctx) h).1 =
      { rd with
        wantsNewServers := rd.wantsNewServers || h.wantsNewServers,
        startTime := min rd.startTime h.startTime,
        healthPriority :=
          if hh then rd.healthPriority else max rd.healthPriority h.healthPriority,
        boundaryPriority :=
          if hb then rd.boundaryPriority else max rd.boundaryPriority h.boundaryPriority,
        priority := max rd.priority
          (max (if hb then rd.boundaryPriority else max rd.boundaryPriority h.boundaryPriority)
            (if hh then rd.healthPriority else max rd.healthPriority h.healthPriority)) } := by
  have hcond : (foundActiveFetchingIn ctx h || foundActiveRelocationIn ctx h) = true := hact
  unfold inheritStep
  dsimp only
  rw [if_pos hcond]

theorem le_foldl_max (f : RelocateData → Int) :
    ∀ (l : List RelocateData) (a : Int), a ≤ l.foldl (fun b e => max b (f e)) a := by
  intro l
  induction l with
  | nil => intro a; exact le_refl a
  | cons e t ih =>
    intro a
    exact le_trans (le_max_left a (f e)) (ih (max a (f e)))

theorem inheritLoop_fields (hh hb : Bool) (rdKeys : KeyRange) :
    ∀ (entries : List RelocateData) (rd : RelocateData) (ctx : InheritCtx),
      (inheritLoop hh hb rdKeys rd ctx entries).1.wantsNewServers =
        (rd.wantsNewServers ||
          (activesOf hh hb rdKeys rd ctx entries).any (fun e => e.wantsNewServers)) ∧
      (inheritLoop hh hb rdKeys rd ctx entries).1.startTime =
        (activesOf hh hb rdKeys rd ctx entries).foldl
          (fun t e => min t e.startTime) rd.startTime ∧
      (inheritLoop hh hb rdKeys rd ctx entries).1.healthPriority =
        (if hh then rd.healthPriority
          else (activesOf hh hb rdKeys rd ctx entries).foldl
            (fun p e => max p e.healthPriority) rd.healthPriority) ∧
      (inheritLoop hh hb rdKeys rd ctx entries).1.boundaryPriority =
        (if hb then rd.boundaryPriority
          else (activesOf hh hb rdKeys rd ctx entries).foldl
            (fun p e => max p e.boundaryPriority) rd.boundaryPriority) ∧
      (inheritLoop hh hb rdKeys rd ctx entries).1.priority =
        (if (activesOf hh hb rdKeys rd ctx entries).isEmpty then rd.priority
          else max rd.priority
            (max (inheritLoop hh hb rdKeys rd ctx entries).1.boundaryPriority
              (inheritLoop hh hb rdKeys rd ctx entries).1.healthPriority)) := by
  intro entries
  induction entries with
  | nil =>
    intro rd ctx
    exact ⟨by simp [inheritLoop, activesOf], by simp [inheritLoop, activesOf],
      by simp [inheritLoop, activesOf], by simp [inheritLoop, activesOf],
      by simp [inheritLoop, activesOf]⟩
  | cons h t ih =>
    intro rd ctx
    have hstep : inheritLoop hh hb rdKeys rd ctx (h :: t) =
        inheritLoop hh hb rdKeys (inheritStep hh hb rdKeys (rd, ctx) h).1
          (inheritStep hh hb rdKeys (rd, ctx) h).2 t := by
      unfold inheritLoop
      rw [List.foldl_cons]
    obtain ⟨ih1, ih2, ih3, ih4, ih5⟩ :=
      ih (inheritStep hh hb rdKeys (rd, ctx) h).1 (inheritStep hh hb rdKeys (rd, ctx) h).2
    rcases hact : activeIn ctx h with _ | _
    · have hrd : (inheritStep hh hb rdKeys (rd, ctx) h).1 = rd :=
        inheritStep_rd_inactive hh hb rdKeys rd ctx h hact
      have hacts : activesOf hh hb rdKeys rd ctx (h :: t) =
          activesOf hh hb rdKeys (inheritStep hh hb rdKeys (rd, ctx) h).1
            (inheritStep hh hb rdKeys (rd, ctx) h).2 t := by
        simp [activesOf, hact]
      rw [hrd] at ih1 ih2 ih3 ih4 ih5
      rw [hstep, hacts, hrd]
      exact ⟨ih1, ih2, ih3, ih4, ih5⟩
    · have hrd : (inheritStep hh hb rdKeys (rd, ctx) h).1 = _ :=
        inheritStep_rd_active hh hb rdKeys rd ctx h hact
      have hw : (inheritStep hh hb rdKeys (rd, ctx) h).1.wantsNewServers =
          (rd.wantsNewServers || h.wantsNewServers) := by rw [hrd]
      have hst : (inheritStep hh hb rdKeys (rd, ctx) h).1.startTime =
          min rd.startTime h.startTime := by rw [hrd]
      have hhp : (inheritStep hh hb rdKeys (rd, ctx) h).1.healthPriority =
          (if hh then rd.healthPriority else max rd.healthPriority h.healthPriority) := by
        rw [hrd]
      have hbp : (inheritStep hh hb rdKeys (rd, ctx) h).1.boundaryPriority =
          (if hb then rd.boundaryPriority else max rd.boundaryPriority h.boundaryPriority) := by
        rw [hrd]
      have hpr : (inheritStep hh hb rdKeys (rd, ctx) h).1.priority =
          max rd.priority (max (inheritStep hh hb rdKeys (rd, ctx) h).1.boundaryPriority
            (inheritStep hh hb rdKeys (rd, ctx) h).1.healthPriority) := by
        rw [hrd]
      have hacts : activesOf hh hb rdKeys rd ctx (h :: t) =
          h :: activesOf hh hb rdKeys (inheritStep hh hb rdKeys (rd, ctx) h).1
            (inheritStep hh hb rdKeys (rd, ctx) h).2 t := by
        simp [activesOf, hact]
      rw [hstep, hacts]
      refine ⟨?_, ?_, ?_, ?_, ?_⟩
      · rw [ih1, hw, List.any_cons, Bool.or_assoc]
      · rw [ih2, hst, List.foldl_cons]
      · rw [ih3, hhp]
        cases hh
        · simp only [Bool.false_eq_true, if_false, List.foldl_cons]
        · simp only [if_true]
      · rw [ih4, hbp]
        cases hb
        · simp only [Bool.false_eq_true, if_false, List.foldl_cons]
        · simp only [if_true]
      · rw [ih5]
        simp only [List.isEmpty_cons, Bool.false_eq_true, if_false]
        rcases hta : (activesOf hh hb rdKeys (inheritStep hh hb rdKeys (rd, ctx) h).1
            (inheritStep hh hb rdKeys (rd, ctx) h).2 t).isEmpty with _ | _
        · have h1 : (inheritStep hh hb rdKeys (rd, ctx) h).1.boundaryPriority ≤
              (inheritLoop hh hb rdKeys (inheritStep hh hb rdKeys (rd, ctx) h).1
                (inheritStep hh hb rdKeys (rd, ctx) h).2 t).1.boundaryPriority := by
            rw [ih4]
            cases hb
            · simp only [Bool.false_eq_true, if_false]
              exact le_foldl_max _ _ _
            · simp only [if_true]
              exact le_refl _
          have h2 : (inheritStep hh hb rdKeys (rd, ctx) h).1.healthPriority ≤
              (inheritLoop hh hb rdKeys (inheritStep hh hb rdKeys (rd, ctx) h).1
                (inheritStep hh hb rdKeys (rd, ctx) h).2 t).1.healthPriority := by
            rw [ih3]
            cases hh
            · simp only [Bool.false_eq_true, if_false]
              exact le_foldl_max _ _ _
            · simp only [if_true]
              exact le_refl _
          rw [if_neg Bool.false_ne_true, hpr, max_assoc,
            max_eq_right (max_le_max h1 h2)]
        · have hrbp : (inheritLoop hh hb rdKeys (inheritStep hh hb rdKeys (rd, ctx) h).1
              (inheritStep hh hb rdKeys (rd, ctx) h).2 t).1.boundaryPriority =
              (inheritStep hh hb rdKeys (rd, ctx) h).1.boundaryPriority := by
            rw [ih4, List.isEmpty_iff.mp hta]
            cases hb <;> rfl
          have hrhp : (inheritLoop hh hb rdKeys (inheritStep hh hb rdKeys (rd, ctx) h).1
              (inheritStep hh hb rdKeys (rd, ctx) h).2 t).1.healthPriority =
              (inheritStep hh hb rdKeys (rd, ctx) h).1.healthPriority := by
            rw [ih3, List.isEmpty_iff.mp hta]
            cases hh <;> rfl
          rw [if_pos rfl, hpr, hrbp, hrhp]

/-- **C3.** During `queueRelocation(rs)` with fresh relocation `rd`, over
the entries `rrs` of `queueMap.intersectingRanges(rd.keys)`: for every
entry the loop finds active — present in `fetchingSourcesQueue` or in
the per-server queue of its `src[0]`, each entry judged against the
queue state of its own iteration, because earlier iterations erase
superseded entries and the insertion splitting of `queueMap` can leave
several intersecting entries sharing one `(priority, startTime,
randomId)` set key — `rd.wantsNewServers` is OR'ed with
`rrs.wantsNewServers`, `rd.startTime` becomes the running minimum of the
active entries' start times, `rd.healthPriority`
(resp. `rd.boundaryPriority`) is raised to at least `rrs`'s value when
`rd`'s own original priority is not a health-band (resp. boundary-band)
priority, and afterwards
`rd.priority = max(rd.priority, rd.boundaryPriority, rd.healthPriority)`
whenever some active entry was inherited. -/
theorem queueRelocationInherit_spec (K : Knobs) (rd : RelocateData) (ctx : InheritCtx)
    (entries : List RelocateData) :
    (queueRelocationInherit K rd ctx entries).1.wantsNewServers =
      (rd.wantsNewServers ||
        (activesOf (isHealthPriority K rd.priority) (isBoundaryPriority K rd.priority)
            rd.keys rd ctx entries).any (fun e => e.wantsNewServers)) ∧
    (queueRelocationInherit K rd ctx entries).1.startTime =
      (activesOf (isHealthPriority K rd.priority) (isBoundaryPriority K rd.priority)
          rd.keys rd ctx entries).foldl (fun t e => min t e.startTime) rd.startTime ∧
    (queueRelocationInherit K rd ctx entries).1.healthPriority =
      (if isHealthPriority K rd.priority then rd.healthPriority
        else (activesOf (isHealthPriority K rd.priority) (isBoundaryPriority K rd.priority)
            rd.keys rd ctx entries).foldl
          (fun p e => max p e.healthPriority) rd.healthPriority) ∧
    (queueRelocationInherit K rd ctx entries).1.boundaryPriority =
      (if isBoundaryPriority K rd.priority then rd.boundaryPriority
        else (activesOf (isHealthPriority K rd.priority) (isBoundaryPriority K rd.priority)
            rd.keys rd ctx entries).foldl
          (fun p e => max p e.boundaryPriority) rd.boundaryPriority) ∧
    (queueRelocationInherit K rd ctx entries).1.priority =
      (if (activesOf (isHealthPriority K rd.priority) (isBoundaryPriority K rd.priority)
            rd.keys rd ctx entries).isEmpty then rd.priority
        else max rd.priority
          (max (queueRelocationInherit K rd ctx entries).1.boundaryPriority
            (queueRelocationInherit K rd ctx entries).1.healthPriority)) :=
  inheritLoop_fields (isHealthPriority K rd.priority) (isBoundaryPriority K rd.priority)
    rd.keys entries rd ctx

end DDQ
